import Mathlib

/-!
Shallow embedding of `app/backend/app.py` (Flask backend of IngestionBaard):
the token manager `ensure_openai_token`, the `/ask` and `/chat` dispatch
handlers, the `/get_documents` grouping/de-duplication, `/delete_document`,
and the `/delete_all_documents` loop. External SDK calls (Azure credential,
search service, blob deletion) are passed in as explicit oracles/parameters.
-/

/-- JSON values as handled by Flask request bodies and `jsonify`. Numbers are
modelled as integers, which suffices for the endpoints under study. -/
inductive Json where
  | null
  | bool (b : Bool)
  | num (n : Int)
  | str (s : String)
  | arr (l : List Json)
  | obj (l : List (String × Json))

/-- Python truthiness of a JSON value (`None`, `False`, `0`, `""`, `[]`, `{}`
are falsy, everything else truthy). -/
def pyTruthy : Json → Bool
  | .null => false
  | .bool b => b
  | .num n => n != 0
  | .str s => s != ""
  | .arr l => !l.isEmpty
  | .obj l => !l.isEmpty

/-- Python exceptions that the handlers can observe. -/
inductive PyExn where
  | keyError (key : String)
  | typeError (msg : String)
  | other (msg : String)
deriving DecidableEq, Repr

/-- `str(e)` for the modelled exceptions; `str` of a `KeyError` is the repr of
the missing key. -/
def exnMsg : PyExn → String
  | .keyError k => "\x27" ++ k ++ "\x27"
  | .typeError m => m
  | .other m => m

/-- Lookup in a Python dict modelled as an association list with unique keys
(first match). -/
def dictGet {V : Type} : List (String × V) → String → Option V
  | [], _ => none
  | (k, v) :: rest, key => if k = key then some v else dictGet rest key

/-- `d[key] = v` on a Python dict: replace in place when the key is present
(insertion order is kept), append otherwise. -/
def dictSet {V : Type} : List (String × V) → String → V → List (String × V)
  | [], key, v => [(key, v)]
  | (k, w) :: rest, key, v =>
    if k = key then (k, v) :: rest else (k, w) :: dictSet rest key v

/-- An Azure access token as returned by `azure_credential.get_token`. -/
structure AccessToken where
  token : String
  expires_on : Int
deriving DecidableEq, Repr

/-- The global mutable state touched by `ensure_openai_token`: the module
global `openai_token` and `openai.api_key`. -/
structure OpenAIState where
  openai_token : AccessToken
  api_key : String
deriving DecidableEq, Repr

/-- `ensure_openai_token` from `app.py`: when
`openai_token.expires_on < int(time.time()) - 60` a fresh token is fetched and
installed into the global token and `openai.api_key`; otherwise the state is
left unchanged. The credential call is the oracle `get_token`, which may
raise. -/
def ensure_openai_token (now : Int) (get_token : Except PyExn AccessToken)
    (st : OpenAIState) : Except PyExn OpenAIState :=
  if st.openai_token.expires_on < now - 60 then
    match get_token with
    | .ok t => .ok { openai_token := t, api_key := t.token }
    | .error e => .error e
  else
    .ok st

/-- The approach objects constructed at module load. -/
inductive Strategy where
  | retrieveThenRead
  | readRetrieveRead
  | readDecomposeAsk
  | chatReadRetrieveRead
deriving DecidableEq, Repr

/-- `ask_approaches` from `app.py`. -/
def ask_approaches : List (String × Strategy) :=
  [("rtr", .retrieveThenRead), ("rrr", .readRetrieveRead),
   ("rda", .readDecomposeAsk)]

/-- `chat_approaches` from `app.py`. -/
def chat_approaches : List (String × Strategy) :=
  [("rrr", .chatReadRetrieveRead)]

/-- What a Flask view produces: either a response (status and body) or an
exception escaping the handler. -/
inductive HandlerOutcome where
  | response (status : Nat) (body : Json)
  | unhandled (e : PyExn)

/-- `approaches.get(approach)` on a Python dict with string keys: a string
looks the key up; an unhashable value (list, dict) raises `TypeError`; any
other hashable value simply misses. -/
def approachLookup (d : List (String × Strategy)) : Json → Except PyExn (Option Strategy)
  | .str a => .ok (dictGet d a)
  | .arr _ => .error (.typeError "unhashable type: list")
  | .obj _ => .error (.typeError "unhashable type: dict")
  | _ => .ok none

/-- The `/ask` handler from `app.py`. `ensure_openai_token()` and
`request.json["approach"]` run before the `try` block, so exceptions there
escape the handler; everything from the registry lookup on is inside the
`try`, whose `except` returns status 500 with body `{"error": str(e)}`.
External effects are oracles: `get_token` for the credential refresh and
`run` for `impl.run(question, overrides)`. `req` is the parsed JSON object of
the request body. Returns the final token state and the outcome. -/
def ask (now : Int) (get_token : Except PyExn AccessToken)
    (run : Strategy → Json → Json → Except PyExn Json)
    (st : OpenAIState) (req : List (String × Json)) :
    OpenAIState × HandlerOutcome :=
  match ensure_openai_token now get_token st with
  | .error e => (st, .unhandled e)
  | .ok st1 =>
    match dictGet req "approach" with
    | none => (st1, .unhandled (.keyError "approach"))
    | some approach =>
      match approachLookup ask_approaches approach with
      | .error e => (st1, .response 500 (.obj [("error", .str (exnMsg e))]))
      | .ok none => (st1, .response 400 (.obj [("error", .str "unknown approach")]))
      | .ok (some impl) =>
        match dictGet req "question" with
        | none =>
          (st1, .response 500 (.obj [("error", .str (exnMsg (.keyError "question")))]))
        | some question =>
          let ov0 := (dictGet req "overrides").getD .null
          let overrides := if pyTruthy ov0 then ov0 else .obj []
          match run impl question overrides with
          | .ok r => (st1, .response 200 r)
          | .error e => (st1, .response 500 (.obj [("error", .str (exnMsg e))]))

/-- The `/chat` handler from `app.py`: identical to `/ask` except that it uses
`chat_approaches` and passes `request.json["history"]` to `impl.run`. -/
def chat (now : Int) (get_token : Except PyExn AccessToken)
    (run : Strategy → Json → Json → Except PyExn Json)
    (st : OpenAIState) (req : List (String × Json)) :
    OpenAIState × HandlerOutcome :=
  match ensure_openai_token now get_token st with
  | .error e => (st, .unhandled e)
  | .ok st1 =>
    match dictGet req "approach" with
    | none => (st1, .unhandled (.keyError "approach"))
    | some approach =>
      match approachLookup chat_approaches approach with
      | .error e => (st1, .response 500 (.obj [("error", .str (exnMsg e))]))
      | .ok none => (st1, .response 400 (.obj [("error", .str "unknown approach")]))
      | .ok (some impl) =>
        match dictGet req "history" with
        | none =>
          (st1, .response 500 (.obj [("error", .str (exnMsg (.keyError "history")))]))
        | some history =>
          let ov0 := (dictGet req "overrides").getD .null
          let overrides := if pyTruthy ov0 then ov0 else .obj []
          match run impl history overrides with
          | .ok r => (st1, .response 200 r)
          | .error e => (st1, .response 500 (.obj [("error", .str (exnMsg e))]))

/-- A blob as enumerated by `blob_container.list_blobs()`: its name, its
`last_modified` date (timestamps, totally ordered) and its etag. -/
structure Blob where
  name : String
  last_modified : Int
  etag : String
deriving DecidableEq, Repr

/-- Index of the last occurrence of `c` in a character list, if any. -/
def lastIndexOf (c : Char) : List Char → Option Nat
  | [] => none
  | x :: xs =>
    match lastIndexOf c xs with
    | some i => some (i + 1)
    | none => if x = c then some 0 else none

/-- Python `s.rfind(c)`: the index of the last occurrence, `-1` when there is
none. -/
def pythonRfind (s : String) (c : Char) : Int :=
  match lastIndexOf c s.data with
  | some i => (i : Int)
  | none => -1

/-- Python `s[:k]` for an integer `k`: a negative `k` counts from the end of
the string; after clamping, the first `k` characters. -/
def pythonSliceTo (s : String) (k : Int) : String :=
  let n : Int := s.data.length
  let k := if k < 0 then k + n else k
  if k ≤ 0 then "" else ⟨s.data.take k.toNat⟩

/-- The ASCII characters Python `str.strip()` removes. -/
def isPySpace (c : Char) : Bool :=
  c = ' ' || c = '\t' || c = '\n' || c = '\r' || c = '\x0b' || c = '\x0c'

/-- Python `s.strip()`: drop leading and trailing whitespace. -/
def pythonStrip (s : String) : String :=
  ⟨((s.data.dropWhile isPySpace).reverse.dropWhile isPySpace).reverse⟩

/-- The grouping key computed by `/get_documents`:
`full_blob_name[:full_blob_name.rfind("-")].strip()`. -/
def baseName (full_blob_name : String) : String :=
  pythonStrip (pythonSliceTo full_blob_name (pythonRfind full_blob_name '-'))

/-- One iteration of the `/get_documents` loop: when `base_name` is already in
`blob_data` with a strictly earlier date, `continue`; otherwise store the new
blob's `(last_modified, etag)` under `base_name`. -/
def gdnStep (blob_data : List (String × Int × String)) (blob : Blob) :
    List (String × Int × String) :=
  let base_name := baseName blob.name
  match dictGet blob_data base_name with
  | some p =>
    if p.1 < blob.last_modified then blob_data
    else dictSet blob_data base_name (blob.last_modified, blob.etag)
  | none => dictSet blob_data base_name (blob.last_modified, blob.etag)

/-- `get_document_names` (`/get_documents` in `app.py`): fold the enumerated
blobs into the dict `blob_data`, then return `list(blob_data.items())`. -/
def get_document_names (blobs : List Blob) : List (String × Int × String) :=
  blobs.foldl gdnStep []

/-- `pat` begins the character list (helper for Python `startswith`). -/
def charsStartWith : List Char → List Char → Bool
  | [], _ => true
  | _ :: _, [] => false
  | p :: ps, c :: cs => p == c && charsStartWith ps cs

/-- Python `s.startswith(pat)`. -/
def strStartsWith (s pat : String) : Bool := charsStartWith pat.data s.data

/-- A document of the search index: its key `id` and its `sourcefile` field. -/
structure SearchDoc where
  id : String
  sourcefile : String
deriving DecidableEq, Repr

/-- The external state `/delete_document` touches: the blob names in the
storage container and the search index documents. -/
structure StoreState where
  blobs : List String
  index : List SearchDoc
deriving DecidableEq, Repr

/-- Python `str()` of the scalar JSON values, as interpolated by the f-string
building the search filter; containers are not rendered faithfully (no claim
depends on that rendering). -/
def pyStr : Json → String
  | .null => "None"
  | .bool true => "True"
  | .bool false => "False"
  | .num n => toString n
  | .str s => s
  | .arr _ => ""
  | .obj _ => ""

/-- The search/delete loop at the end of `/delete_document`: search the index
with filter `sourcefile eq '<name>.pdf'` (top 1000; deletions are modelled as
immediately visible), stop when no result, else delete the returned documents
by id and repeat. `fuel` bounds the iterations; `none` means the loop was
still running when fuel ran out. -/
def deleteDocumentLoop (sourcefile : String) :
    Nat → List SearchDoc → Option (List SearchDoc)
  | 0, _ => none
  | fuel + 1, index =>
    let results := (index.filter (fun d => d.sourcefile == sourcefile)).take 1000
    if results.length = 0 then some index
    else
      deleteDocumentLoop sourcefile fuel
        (index.filter (fun d => !(results.map SearchDoc.id).contains d.id))

/-- `/delete_document` from `app.py`. `req` is the parsed JSON body; `delOk`
says whether deleting a given blob succeeds (the `try`/`except` around
`delete_blob` swallows a failure and the `for` loop continues). Returns the
final store state, the blob names whose deletion was attempted (in enumeration
order), and the outcome (`none` when the index loop's fuel ran out). A falsy
`name` returns 400 before anything is touched; a truthy non-string `name`
raises `TypeError` at the first `startswith` when the container is
non-empty. -/
def delete_document (req : List (String × Json)) (st : StoreState)
    (delOk : String → Bool) (fuel : Nat) :
    StoreState × List String × Option HandlerOutcome :=
  let blob_name_json := (dictGet req "name").getD .null
  if !pyTruthy blob_name_json then
    (st, [],
      some (.response 400 (.obj [("error", .str "Missing \x27name\x27 parameter")])))
  else
    match blob_name_json with
    | .str blob_name_to_delete =>
      let attempted := st.blobs.filter (fun b => strStartsWith b blob_name_to_delete)
      let blobs1 := st.blobs.filter
        (fun b => !(strStartsWith b blob_name_to_delete && delOk b))
      match deleteDocumentLoop (blob_name_to_delete ++ ".pdf") fuel st.index with
      | some index1 =>
        ({ blobs := blobs1, index := index1 }, attempted,
          some (.response 200 (.str "200")))
      | none => ({ blobs := blobs1, index := st.index }, attempted, none)
    | _ =>
      match st.blobs with
      | _ :: _ => (st, [], some (.unhandled (.typeError "startswith arg must be str")))
      | [] =>
        match deleteDocumentLoop (pyStr blob_name_json ++ ".pdf") fuel st.index with
        | some index1 =>
          ({ blobs := [], index := index1 }, [], some (.response 200 (.str "200")))
        | none => (st, [], none)

/-- The per-key selection the de-duplication of `/get_documents` amounts to
(used to state and prove its characterization): keep the accumulated pair when
it is strictly earlier than the new blob, otherwise take the new blob's
`(last_modified, etag)`. -/
def pickOpt (acc : Option (Int × String)) (b : Blob) : Option (Int × String) :=
  match acc with
  | some p => if p.1 < b.last_modified then some p else some (b.last_modified, b.etag)
  | none => some (b.last_modified, b.etag)

/-- What one `search_client.search("*", top=1000, include_total_count=True)`
call reports: the returned documents' ids (at most 1000) and the total
count. -/
structure SearchPage where
  ids : List String
  total : Nat

/-- `/delete_all_documents` from `app.py`, over an abstract search-service
state `S`: `search` is the search call above and `delete` the combined effect
of `delete_documents` on the returned ids and the 2-second sleep (the service
is only eventually consistent, so the effect stays an oracle). `fuel` bounds
the iterations; `none` means the loop was still running when it ran out. -/
def delete_all_documents {S : Type} (search : S → SearchPage)
    (delete : S → List String → S) : Nat → S → Option (S × String)
  | 0, _ => none
  | fuel + 1, s =>
    let r := search s
    if r.total = 0 then some (s, "Deleted all documents")
    else delete_all_documents search delete fuel (delete s r.ids)

/-! Helper lemmas: association-list dictionaries, the `/get_documents` fold,
Python string helpers, and the common shapes of the `/ask` and `/chat`
handlers. -/

theorem dictGet_dictSet {V : Type} (d : List (String × V)) (k key : String) (v : V) :
    dictGet (dictSet d k v) key = if k = key then some v else dictGet d key := by
  induction d with
  | nil => simp [dictSet, dictGet]
  | cons p rest ih =>
    obtain ⟨k0, v0⟩ := p
    by_cases h0 : k0 = k
    · subst h0
      by_cases hk : k0 = key <;> simp [dictSet, dictGet, hk]
    · by_cases hk : k0 = key
      · subst hk
        have hkey : ¬k = k0 := fun h => h0 h.symm
        simp [dictSet, if_neg h0, dictGet, if_neg hkey]
      · simp [dictSet, if_neg h0, dictGet, if_neg hk, ih]

theorem mem_keys_iff_isSome {V : Type} (d : List (String × V)) (key : String) :
    key ∈ d.map Prod.fst ↔ (dictGet d key).isSome := by
  induction d with
  | nil => simp [dictGet]
  | cons p rest ih =>
    obtain ⟨k0, v0⟩ := p
    by_cases h0 : k0 = key
    · subst h0
      simp [dictGet]
    · have hke : ¬key = k0 := fun h => h0 h.symm
      simp [dictGet, if_neg h0, hke, ih]

theorem keys_dictSet_of_mem {V : Type} (d : List (String × V)) (k : String) (v : V)
    (h : k ∈ d.map Prod.fst) : (dictSet d k v).map Prod.fst = d.map Prod.fst := by
  induction d with
  | nil => simp at h
  | cons p rest ih =>
    obtain ⟨k0, v0⟩ := p
    by_cases h0 : k0 = k
    · simp [dictSet, if_pos h0, h0]
    · simp only [List.map_cons, List.mem_cons] at h
      rcases h with h | h
      · exact absurd h.symm h0
      · simp [dictSet, if_neg h0, ih h]

theorem keys_dictSet_of_not_mem {V : Type} (d : List (String × V)) (k : String) (v : V)
    (h : k ∉ d.map Prod.fst) : (dictSet d k v).map Prod.fst = d.map Prod.fst ++ [k] := by
  induction d with
  | nil => simp [dictSet]
  | cons p rest ih =>
    obtain ⟨k0, v0⟩ := p
    simp only [List.map_cons, List.mem_cons, not_or] at h
    have h0 : ¬k0 = k := fun hx => h.1 hx.symm
    simp [dictSet, if_neg h0, ih h.2]

theorem dictGet_eq_some_of_mem {V : Type} {d : List (String × V)} {k : String} {v : V}
    (hnd : (d.map Prod.fst).Nodup) (h : (k, v) ∈ d) : dictGet d k = some v := by
  induction d with
  | nil => simp at h
  | cons p rest ih =>
    obtain ⟨k0, v0⟩ := p
    simp only [List.map_cons, List.nodup_cons] at hnd
    rcases List.mem_cons.mp h with h | h
    · cases h
      simp [dictGet]
    · have hkne : ¬k0 = k := by
        intro h0
        subst h0
        exact hnd.1 (List.mem_map_of_mem Prod.fst h)
      simp [dictGet, if_neg hkne, ih hnd.2 h]

theorem dictGet_gdnStep (d : List (String × Int × String)) (b : Blob) (key : String) :
    dictGet (gdnStep d b) key =
      if baseName b.name = key then pickOpt (dictGet d key) b else dictGet d key := by
  by_cases hbase : baseName b.name = key
  · subst hbase
    simp only [gdnStep]
    cases hd : dictGet d (baseName b.name) with
    | none => simp [pickOpt, dictGet_dictSet, hd]
    | some p =>
      by_cases hlt : p.1 < b.last_modified
      · simp [pickOpt, hd, hlt]
      · simp [pickOpt, hd, hlt, dictGet_dictSet]
  · simp only [gdnStep]
    cases hd : dictGet d (baseName b.name) with
    | none => simp [dictGet_dictSet, if_neg hbase, hbase]
    | some p =>
      by_cases hlt : p.1 < b.last_modified
      · simp [hlt, hbase]
      · simp [hlt, dictGet_dictSet, if_neg hbase, hbase]

theorem dictGet_foldl_gdnStep (blobs : List Blob) (d : List (String × Int × String))
    (key : String) :
    dictGet (blobs.foldl gdnStep d) key
      = (blobs.filter (fun b => baseName b.name == key)).foldl pickOpt (dictGet d key) := by
  induction blobs generalizing d with
  | nil => simp
  | cons b rest ih =>
    rw [List.foldl_cons, ih, List.filter_cons]
    by_cases hbase : baseName b.name = key
    · simp [hbase, dictGet_gdnStep, List.foldl_cons]
    · simp [hbase, dictGet_gdnStep]

theorem keys_gdnStep_nodup (d : List (String × Int × String)) (b : Blob)
    (h : (d.map Prod.fst).Nodup) : ((gdnStep d b).map Prod.fst).Nodup := by
  simp only [gdnStep]
  cases hd : dictGet d (baseName b.name) with
  | none =>
    have hmem : baseName b.name ∉ d.map Prod.fst := by
      rw [mem_keys_iff_isSome, hd]
      simp
    rw [keys_dictSet_of_not_mem _ _ _ hmem]
    simp [List.nodup_append, h, hmem]
  | some p =>
    have hmem : baseName b.name ∈ d.map Prod.fst := by
      rw [mem_keys_iff_isSome, hd]
      simp
    by_cases hlt : p.1 < b.last_modified
    · simpa [hlt] using h
    · simpa [hlt, keys_dictSet_of_mem _ _ _ hmem] using h

theorem keys_foldl_gdnStep_nodup (blobs : List Blob) (d : List (String × Int × String))
    (h : (d.map Prod.fst).Nodup) : ((blobs.foldl gdnStep d).map Prod.fst).Nodup := by
  induction blobs generalizing d with
  | nil => exact h
  | cons b rest ih => exact ih _ (keys_gdnStep_nodup _ _ h)

theorem foldl_pickOpt_some (l : List Blob) (p : Int × String) :
    ∃ q, l.foldl pickOpt (some p) = some q := by
  induction l generalizing p with
  | nil => exact ⟨p, rfl⟩
  | cons b rest ih =>
    rw [List.foldl_cons]
    by_cases hlt : p.1 < b.last_modified
    · rw [show pickOpt (some p) b = some p from by simp [pickOpt, hlt]]
      exact ih p
    · rw [show pickOpt (some p) b = some (b.last_modified, b.etag) from by
        simp [pickOpt, hlt]]
      exact ih _

theorem foldl_pickOpt_none_iff (l : List Blob) :
    l.foldl pickOpt none = none ↔ l = [] := by
  cases l with
  | nil => simp
  | cons b rest =>
    simp only [List.foldl_cons, pickOpt]
    obtain ⟨q, hq⟩ := foldl_pickOpt_some rest (b.last_modified, b.etag)
    simp [hq]

theorem foldl_pickOpt_spec (key : String) (blobs : List Blob) (d : Int) (e : String) :
    (blobs.filter (fun b => baseName b.name == key)).foldl pickOpt none = some (d, e) →
    ∃ l₁ b l₂, blobs = l₁ ++ b :: l₂ ∧ baseName b.name = key
      ∧ b.last_modified = d ∧ b.etag = e
      ∧ (∀ b2 ∈ blobs, baseName b2.name = key → d ≤ b2.last_modified)
      ∧ (∀ b2 ∈ l₂, baseName b2.name = key → d < b2.last_modified) := by
  induction blobs using List.reverseRecOn generalizing d e with
  | nil => intro h; simp at h
  | append_singleton l c ih =>
    intro h
    rw [List.filter_append, List.foldl_append] at h
    by_cases hc : baseName c.name = key
    · rw [show List.filter (fun b => baseName b.name == key) [c] = [c] from by
        simp [hc]] at h
      simp only [List.foldl_cons, List.foldl_nil] at h
      cases hprev : (l.filter (fun b => baseName b.name == key)).foldl pickOpt none with
      | none =>
        rw [hprev] at h
        have hl : l.filter (fun b => baseName b.name == key) = [] :=
          (foldl_pickOpt_none_iff _).mp hprev
        have hnone : ∀ b2 ∈ l, baseName b2.name = key → False := by
          intro b2 hb2 hkey2
          have : b2 ∈ l.filter (fun b => baseName b.name == key) :=
            List.mem_filter.mpr ⟨hb2, by simp [hkey2]⟩
          simp [hl] at this
        simp only [pickOpt, Option.some.injEq, Prod.mk.injEq] at h
        refine ⟨l, c, [], rfl, hc, h.1, h.2, ?_, by simp⟩
        intro b2 hb2 hkey2
        rcases List.mem_append.mp hb2 with h2 | h2
        · exact absurd hkey2 (fun hk => hnone b2 h2 hk)
        · rw [List.mem_singleton.mp h2]
          omega
      | some q =>
        obtain ⟨d0, e0⟩ := q
        rw [hprev] at h
        obtain ⟨l₁, b, l₂, hsplit, hbk, hbd, hbe, hmin, hlast⟩ := ih d0 e0 hprev
        simp only [pickOpt] at h
        by_cases hlt : d0 < c.last_modified
        · rw [if_pos hlt] at h
          obtain ⟨hd0, he0⟩ : d0 = d ∧ e0 = e := by
            simpa [Prod.mk.injEq] using h
          subst hd0
          subst he0
          refine ⟨l₁, b, l₂ ++ [c], by rw [hsplit]; simp, hbk, hbd, hbe, ?_, ?_⟩
          · intro b2 hb2 hkey2
            rcases List.mem_append.mp hb2 with h2 | h2
            · exact hmin b2 h2 hkey2
            · rw [List.mem_singleton.mp h2]
              omega
          · intro b2 hb2 hkey2
            rcases List.mem_append.mp hb2 with h2 | h2
            · exact hlast b2 h2 hkey2
            · rw [List.mem_singleton.mp h2]
              omega
        · rw [if_neg hlt] at h
          obtain ⟨hcd, hce⟩ : c.last_modified = d ∧ c.etag = e := by
            simpa [Prod.mk.injEq] using h
          refine ⟨l, c, [], rfl, hc, hcd, hce, ?_, by simp⟩
          intro b2 hb2 hkey2
          rcases List.mem_append.mp hb2 with h2 | h2
          · have := hmin b2 h2 hkey2
            omega
          · rw [List.mem_singleton.mp h2]
            omega
    · rw [show List.filter (fun b => baseName b.name == key) [c] = [] from by
        simp [hc], List.foldl_nil] at h
      obtain ⟨l₁, b, l₂, hsplit, hbk, hbd, hbe, hmin, hlast⟩ := ih d e h
      refine ⟨l₁, b, l₂ ++ [c], by rw [hsplit]; simp, hbk, hbd, hbe, ?_, ?_⟩
      · intro b2 hb2 hkey2
        rcases List.mem_append.mp hb2 with h2 | h2
        · exact hmin b2 h2 hkey2
        · rw [List.mem_singleton.mp h2] at hkey2
          exact absurd hkey2 hc
      · intro b2 hb2 hkey2
        rcases List.mem_append.mp hb2 with h2 | h2
        · exact hlast b2 h2 hkey2
        · rw [List.mem_singleton.mp h2] at hkey2
          exact absurd hkey2 hc

theorem lastIndexOf_eq_none {c : Char} {l : List Char} (h : c ∉ l) :
    lastIndexOf c l = none := by
  induction l with
  | nil => rfl
  | cons x xs ih =>
    simp only [List.mem_cons, not_or] at h
    simp [lastIndexOf, ih h.2, if_neg (fun hx : x = c => h.1 hx.symm)]

theorem length_dropWhile_le (p : Char → Bool) (l : List Char) :
    (l.dropWhile p).length ≤ l.length := by
  induction l with
  | nil => simp
  | cons x xs ih =>
    by_cases h : p x
    · simp [List.dropWhile, h]
      omega
    · simp [List.dropWhile, h]

theorem length_pythonStrip_le (s : String) :
    (pythonStrip s).data.length ≤ s.data.length := by
  simp only [pythonStrip]
  calc (((s.data.dropWhile isPySpace).reverse.dropWhile isPySpace).reverse).length
      = ((s.data.dropWhile isPySpace).reverse.dropWhile isPySpace).length := by
        simp
    _ ≤ (s.data.dropWhile isPySpace).reverse.length := length_dropWhile_le _ _
    _ = (s.data.dropWhile isPySpace).length := by simp
    _ ≤ s.data.length := length_dropWhile_le _ _

theorem pythonSliceTo_neg_one (s : String) : pythonSliceTo s (-1) = ⟨s.data.dropLast⟩ := by
  obtain ⟨l⟩ := s
  simp only [pythonSliceTo]
  rcases l with _ | ⟨x, xs⟩
  · rfl
  · rw [if_pos (show (-1 : Int) < 0 by norm_num)]
    rcases xs with _ | ⟨y, ys⟩
    · rfl
    · rw [if_neg (by simp only [List.length_cons]; push_cast; omega)]
      congr 1
      rw [List.dropLast_eq_take]
      congr 1
      simp only [List.length_cons]
      push_cast
      omega

theorem dictGet_ask_approaches_isSome :
    ∀ a : String, (dictGet ask_approaches a).isSome ↔ a = "rtr" ∨ a = "rrr" ∨ a = "rda" := by
  intro a
  simp only [ask_approaches, dictGet]
  split_ifs with h1 h2 h3 <;> simp_all [eq_comm]

theorem ask_responds_of_approach_present :
    ∀ now get_token run st st1 req a,
      ensure_openai_token now get_token st = .ok st1 →
      dictGet req "approach" = some a →
      ∃ status body, ask now get_token run st req = (st1, .response status body) := by
  intro now get_token run st st1 req a h1 h2
  simp only [ask, h1, h2]
  cases a <;> simp only [approachLookup] <;> repeat' split
  all_goals exact ⟨_, _, rfl⟩

theorem chat_responds_of_approach_present :
    ∀ now get_token run st st1 req a,
      ensure_openai_token now get_token st = .ok st1 →
      dictGet req "approach" = some a →
      ∃ status body, chat now get_token run st req = (st1, .response status body) := by
  intro now get_token run st st1 req a h1 h2
  simp only [chat, h1, h2]
  cases a <;> simp only [approachLookup] <;> repeat' split
  all_goals exact ⟨_, _, rfl⟩

theorem ask_run_error_mapped :
    ∀ now get_token run st st1 req a impl q e,
      ensure_openai_token now get_token st = .ok st1 →
      dictGet req "approach" = some (.str a) →
      dictGet ask_approaches a = some impl →
      dictGet req "question" = some q →
      run impl q (if pyTruthy ((dictGet req "overrides").getD .null)
                  then (dictGet req "overrides").getD .null else .obj []) = .error e →
      ask now get_token run st req
        = (st1, .response 500 (.obj [("error", .str (exnMsg e))])) := by
  intro now get_token run st st1 req a impl q e h1 h2 h3 h4 h5
  simp [ask, h1, h2, h3, h4, h5, approachLookup]

theorem chat_run_error_mapped :
    ∀ now get_token run st st1 req a impl q e,
      ensure_openai_token now get_token st = .ok st1 →
      dictGet req "approach" = some (.str a) →
      dictGet chat_approaches a = some impl →
      dictGet req "history" = some q →
      run impl q (if pyTruthy ((dictGet req "overrides").getD .null)
                  then (dictGet req "overrides").getD .null else .obj []) = .error e →
      chat now get_token run st req
        = (st1, .response 500 (.obj [("error", .str (exnMsg e))])) := by
  intro now get_token run st st1 req a impl q e h1 h2 h3 h4 h5
  simp [chat, h1, h2, h3, h4, h5, approachLookup]

/-! The claims. -/

/-- C1: the claim says that a stored bearer token whose expiry is within 60
seconds of the current time, or already past, is refreshed before the request
proceeds, and otherwise left unchanged. The code instead refreshes only when
`expires_on < int(time.time()) - 60`, i.e. once the token has been expired
for more than 60 seconds: at current time 1030, with the stored token expired
at 1000 (30 seconds in the past) and a fresh token available,
`ensure_openai_token` leaves the stored token and the api key unchanged. -/
theorem C1_ensure_openai_token_keeps_expired_token :
    ensure_openai_token 1030 (.ok { token := "new", expires_on := 5000 })
        { openai_token := { token := "old", expires_on := 1000 }, api_key := "old" }
      = .ok { openai_token := { token := "old", expires_on := 1000 }, api_key := "old" }
    ∧ (1000 : Int) < 1030 :=
  ⟨rfl, by decide⟩

/-- C2, counterexample: an exception raised while extracting the `approach`
field (here a `KeyError` on a body without that key) is NOT caught: the `/ask`
handler ends in an unhandled exception, not in a status-500 JSON error
response, because `request.json["approach"]` runs before the `try` block. -/
theorem C2_counterexample_unhandled_keyerror :
    ask 0 (.ok { token := "t", expires_on := 0 }) (fun _ _ _ => .ok .null)
      { openai_token := { token := "t", expires_on := 100 }, api_key := "t" } []
      = ({ openai_token := { token := "t", expires_on := 100 }, api_key := "t" },
         .unhandled (.keyError "approach")) := rfl

/-- C2, amended: every exception raised inside the `try` block of `/ask` and
`/chat` is caught — once the token refresh has succeeded and the `approach`
key is present, the handler always returns a response — and an exception from
the strategy's `run` is mapped to status 500 with body
`{"error": str(e)}`. Exceptions from `ensure_openai_token()` and from
`request.json["approach"]`, both of which run before the `try`, are not
covered and propagate (see the counterexample). -/
theorem C2_amended_try_block_maps_exceptions :
    (∀ now get_token run st st1 req a,
        ensure_openai_token now get_token st = .ok st1 →
        dictGet req "approach" = some a →
        ∃ status body, ask now get_token run st req = (st1, .response status body))
    ∧ (∀ now get_token run st st1 req a,
        ensure_openai_token now get_token st = .ok st1 →
        dictGet req "approach" = some a →
        ∃ status body, chat now get_token run st req = (st1, .response status body))
    ∧ (∀ now get_token run st st1 req a impl q e,
        ensure_openai_token now get_token st = .ok st1 →
        dictGet req "approach" = some (.str a) →
        dictGet ask_approaches a = some impl →
        dictGet req "question" = some q →
        run impl q (if pyTruthy ((dictGet req "overrides").getD .null)
                    then (dictGet req "overrides").getD .null else .obj []) = .error e →
        ask now get_token run st req
          = (st1, .response 500 (.obj [("error", .str (exnMsg e))])))
    ∧ (∀ now get_token run st st1 req a impl q e,
        ensure_openai_token now get_token st = .ok st1 →
        dictGet req "approach" = some (.str a) →
        dictGet chat_approaches a = some impl →
        dictGet req "history" = some q →
        run impl q (if pyTruthy ((dictGet req "overrides").getD .null)
                    then (dictGet req "overrides").getD .null else .obj []) = .error e →
        chat now get_token run st req
          = (st1, .response 500 (.obj [("error", .str (exnMsg e))]))) :=
  ⟨ask_responds_of_approach_present, chat_responds_of_approach_present,
   ask_run_error_mapped, chat_run_error_mapped⟩

/-- C2, witness: the amended theorem applied at a concrete request whose
`approach` value is the number 7 (present, so the handler responds rather
than raising). -/
theorem C2_amended_try_block_maps_exceptions_witness :
    ∃ status body,
      ask 0 (.ok { token := "t", expires_on := 0 }) (fun _ _ _ => .ok .null)
        { openai_token := { token := "t", expires_on := 100 }, api_key := "t" }
        [("approach", .num 7)]
      = ({ openai_token := { token := "t", expires_on := 100 }, api_key := "t" },
         .response status body) :=
  C2_amended_try_block_maps_exceptions.1 0 _ _ _ _ _ (.num 7) rfl rfl

/-- C3: for every sequence of enumerated blobs, `get_document_names` returns
exactly one entry per base name (the key `baseName`, computed from the name by
truncating at the last hyphen via `rfind` and stripping), and the retained
`(last_modified, etag)` pair of each entry is that of a blob with the earliest
last-modified date among its group, with a tie going to the blob enumerated
later: the chosen blob splits the enumeration as `l₁ ++ b :: l₂` where no
blob of the same group in `l₂` has a date ≤ its date. -/
theorem C3_get_document_names_one_entry_per_base_name (blobs : List Blob) :
    ((get_document_names blobs).map Prod.fst).Nodup
    ∧ (∀ key : String,
        key ∈ (get_document_names blobs).map Prod.fst
          ↔ ∃ b ∈ blobs, baseName b.name = key)
    ∧ (∀ key d e, (key, d, e) ∈ get_document_names blobs →
        ∃ l₁ b l₂, blobs = l₁ ++ b :: l₂ ∧ baseName b.name = key
          ∧ b.last_modified = d ∧ b.etag = e
          ∧ (∀ b2 ∈ blobs, baseName b2.name = key → d ≤ b2.last_modified)
          ∧ (∀ b2 ∈ l₂, baseName b2.name = key → d < b2.last_modified)) := by
  have hnodup : ((get_document_names blobs).map Prod.fst).Nodup :=
    keys_foldl_gdnStep_nodup blobs [] (by simp)
  refine ⟨hnodup, ?_, ?_⟩
  · intro key
    rw [mem_keys_iff_isSome, get_document_names, dictGet_foldl_gdnStep,
      show dictGet ([] : List (String × Int × String)) key = none from rfl]
    constructor
    · intro hsome
      by_contra hnone
      push_neg at hnone
      have hfil : blobs.filter (fun b => baseName b.name == key) = [] := by
        rw [List.filter_eq_nil_iff]
        intro b hb
        simp [hnone b hb]
      rw [hfil] at hsome
      simp at hsome
    · rintro ⟨b, hb, hkey⟩
      cases hfold : (blobs.filter (fun b => baseName b.name == key)).foldl pickOpt none with
      | some q => simp
      | none =>
        have hfil := (foldl_pickOpt_none_iff _).mp hfold
        have hbmem : b ∈ blobs.filter (fun b => baseName b.name == key) :=
          List.mem_filter.mpr ⟨hb, by simp [hkey]⟩
        rw [hfil] at hbmem
        simp at hbmem
  · intro key d e hmem
    have hget : dictGet (get_document_names blobs) key = some (d, e) :=
      dictGet_eq_some_of_mem hnodup hmem
    rw [get_document_names, dictGet_foldl_gdnStep,
      show dictGet ([] : List (String × Int × String)) key = none from rfl] at hget
    exact foldl_pickOpt_spec key blobs d e hget

/-- C3, witness: on three blobs sharing the base name "x" with dates 5, 1, 3,
the retained pair is the date-1 blob's, and no later blob of the group has an
earlier-or-equal date. -/
theorem C3_get_document_names_one_entry_per_base_name_witness :
    ∃ l₁ b l₂,
      ([⟨"x-1", 5, "e1"⟩, ⟨"x-2", 1, "e2"⟩, ⟨"x-3", 3, "e3"⟩] : List Blob)
          = l₁ ++ b :: l₂
        ∧ baseName b.name = "x" ∧ b.last_modified = 1 ∧ b.etag = "e2"
        ∧ (∀ b2 ∈ ([⟨"x-1", 5, "e1"⟩, ⟨"x-2", 1, "e2"⟩, ⟨"x-3", 3, "e3"⟩] : List Blob),
            baseName b2.name = "x" → 1 ≤ b2.last_modified)
        ∧ (∀ b2 ∈ l₂, baseName b2.name = "x" → 1 < b2.last_modified) :=
  (C3_get_document_names_one_entry_per_base_name
      [⟨"x-1", 5, "e1"⟩, ⟨"x-2", 1, "e2"⟩, ⟨"x-3", 3, "e3"⟩]).2.2 "x" 1 "e2" (by decide)

/-- C4: the `/ask` registry resolves exactly the names "rtr", "rrr" and
"rda"; a request naming an unregistered approach receives status 400 with
body `{"error": "unknown approach"}`, and a request naming a registered one
dispatches to that strategy object — the response is exactly what its `run`
returns. -/
theorem C4_ask_registry_and_dispatch :
    (∀ a : String,
        (dictGet ask_approaches a).isSome ↔ a = "rtr" ∨ a = "rrr" ∨ a = "rda")
    ∧ (∀ now get_token run st st1 req a,
        ensure_openai_token now get_token st = .ok st1 →
        dictGet req "approach" = some (.str a) →
        dictGet ask_approaches a = none →
        ask now get_token run st req
          = (st1, .response 400 (.obj [("error", .str "unknown approach")])))
    ∧ (∀ now get_token run st st1 req a impl q r,
        ensure_openai_token now get_token st = .ok st1 →
        dictGet req "approach" = some (.str a) →
        dictGet ask_approaches a = some impl →
        dictGet req "question" = some q →
        run impl q (if pyTruthy ((dictGet req "overrides").getD .null)
                    then (dictGet req "overrides").getD .null else .obj []) = .ok r →
        ask now get_token run st req = (st1, .response 200 r)) := by
  refine ⟨dictGet_ask_approaches_isSome, ?_, ?_⟩
  · intro now get_token run st st1 req a h1 h2 h3
    simp [ask, h1, h2, h3, approachLookup]
  · intro now get_token run st st1 req a impl q r h1 h2 h3 h4 h5
    simp [ask, h1, h2, h3, h4, h5, approachLookup]

/-- C4, witness: a concrete `/ask` request naming "rda" dispatches and
returns the strategy's result. -/
theorem C4_ask_registry_and_dispatch_witness :
    ask 0 (.ok { token := "t", expires_on := 0 }) (fun _ _ _ => .ok (.str "ran"))
      { openai_token := { token := "t", expires_on := 100 }, api_key := "t" }
      [("approach", .str "rda"), ("question", .str "q")]
      = ({ openai_token := { token := "t", expires_on := 100 }, api_key := "t" },
         .response 200 (.str "ran")) :=
  C4_ask_registry_and_dispatch.2.2 0 _ _ _ _ _ "rda" _ _ _ rfl rfl rfl rfl rfl

/-- C5: for a `/delete_document` request with a non-empty string name,
deletion is attempted for exactly the container blobs whose names start with
that name (in enumeration order, and independently of which deletions fail,
so one failure does not stop the remaining attempts), and every blob whose
name does not start with it stays in the container. -/
theorem C5_delete_document_attempts_matching_blobs :
    ∀ req st delOk fuel n,
      dictGet req "name" = some (.str n) → n ≠ "" →
      (delete_document req st delOk fuel).2.1
          = st.blobs.filter (fun b => strStartsWith b n)
        ∧ (delete_document req st delOk fuel).1.blobs
          = st.blobs.filter (fun b => !(strStartsWith b n && delOk b))
        ∧ ∀ b ∈ st.blobs, strStartsWith b n = false →
            b ∈ (delete_document req st delOk fuel).1.blobs := by
  intro req st delOk fuel n h1 h2
  have htr : pyTruthy (Json.str n) = true := by simp [pyTruthy, h2]
  cases hl : deleteDocumentLoop (n ++ ".pdf") fuel st.index <;>
    refine ⟨?_, ?_, ?_⟩ <;>
    simp [delete_document, h1, htr, hl, List.mem_filter]
  · intro b hb hsw
    simp [hsw, hb]
  · intro b hb hsw
    simp [hsw, hb]

/-- C5, witness: with blobs "x-1", "y-1", "x-2", name "x", and the deletion of
"x-1" failing, deletion is attempted on "x-1" and "x-2" (the failure does not
stop the loop) and "y-1" stays. -/
theorem C5_delete_document_attempts_matching_blobs_witness :
    (delete_document [("name", .str "x")] ⟨["x-1", "y-1", "x-2"], []⟩
        (fun b => b != "x-1") 1).2.1
        = (["x-1", "y-1", "x-2"] : List String).filter (fun b => strStartsWith b "x")
      ∧ (delete_document [("name", .str "x")] ⟨["x-1", "y-1", "x-2"], []⟩
          (fun b => b != "x-1") 1).1.blobs
        = (["x-1", "y-1", "x-2"] : List String).filter
            (fun b => !(strStartsWith b "x" && (fun b => b != "x-1") b))
      ∧ ∀ b ∈ (["x-1", "y-1", "x-2"] : List String), strStartsWith b "x" = false →
          b ∈ (delete_document [("name", .str "x")] ⟨["x-1", "y-1", "x-2"], []⟩
            (fun b => b != "x-1") 1).1.blobs :=
  C5_delete_document_attempts_matching_blobs [("name", .str "x")]
    ⟨["x-1", "y-1", "x-2"], []⟩ (fun b => b != "x-1") 1 "x" rfl (by decide)

/-- C6, counterexample: when the request's `overrides` value is `false` —
present and not null — the strategy receives the empty dict, not `false`,
because the handler computes `request.json.get("overrides") or {}` and `or`
replaces every falsy value: with an echoing strategy the response body is
`{}`, which differs from `false`. -/
theorem C6_counterexample_false_overrides_becomes_empty_dict :
    ask 0 (.ok { token := "t", expires_on := 0 })
        (fun _ _ overrides => .ok overrides)
        { openai_token := { token := "t", expires_on := 100 }, api_key := "t" }
        [("approach", .str "rtr"), ("question", .str "q"), ("overrides", .bool false)]
      = ({ openai_token := { token := "t", expires_on := 100 }, api_key := "t" },
         .response 200 (.obj []))
    ∧ Json.obj [] ≠ Json.bool false :=
  ⟨rfl, fun h => nomatch h⟩

/-- C6, amended: for a registered approach, the response body is exactly the
value returned by the strategy's `run(question, overrides)` — the handler
adds, removes and transforms nothing — where `overrides` is the request's
`overrides` value when that value is truthy, and the empty dict when it is
absent, null, or any other falsy value (`false`, `0`, `""`, `[]`, `{}`). -/
theorem C6_amended_ask_passthrough :
    ∀ now get_token run st st1 req a impl q ov0 r,
      ensure_openai_token now get_token st = .ok st1 →
      dictGet req "approach" = some (.str a) →
      dictGet ask_approaches a = some impl →
      dictGet req "question" = some q →
      (dictGet req "overrides").getD .null = ov0 →
      run impl q (if pyTruthy ov0 then ov0 else .obj []) = .ok r →
      ask now get_token run st req = (st1, .response 200 r) := by
  intro now get_token run st st1 req a impl q ov0 r h1 h2 h3 h4 h5 h6
  subst h5
  simp [ask, h1, h2, h3, h4, h6, approachLookup]

/-- C6, witness: with a truthy `overrides` object and an echoing strategy the
response body is exactly that object. -/
theorem C6_amended_ask_passthrough_witness :
    ask 0 (.ok { token := "t", expires_on := 0 }) (fun _ _ overrides => .ok overrides)
      { openai_token := { token := "t", expires_on := 100 }, api_key := "t" }
      [("approach", .str "rrr"), ("question", .str "q"),
       ("overrides", .obj [("top", .num 3)])]
      = ({ openai_token := { token := "t", expires_on := 100 }, api_key := "t" },
         .response 200 (.obj [("top", .num 3)])) :=
  C6_amended_ask_passthrough 0 _ _ _ _ _ "rrr" _ _ _ _ rfl rfl rfl rfl rfl rfl

/-- C7: the `/delete_all_documents` loop searches, stops with
"Deleted all documents" exactly when a search reports total count 0, and
otherwise deletes the returned documents by id and retries; under the
precondition that each delete batch reduces the reported count by the next
search, the loop terminates (any fuel beyond the current count suffices) and
the final state's count is zero. -/
theorem C7_delete_all_documents_terminates :
    ∀ (S : Type) (search : S → SearchPage) (delete : S → List String → S)
      (fuel : Nat) (s : S),
      (∀ t : S, 0 < (search t).total →
         (search (delete t (search t).ids)).total < (search t).total) →
      (search s).total < fuel →
      ∃ s1, delete_all_documents search delete fuel s
              = some (s1, "Deleted all documents")
            ∧ (search s1).total = 0 := by
  intro S search delete fuel s hdec
  induction fuel generalizing s with
  | zero => intro hfuel; exact absurd hfuel (Nat.not_lt_zero _)
  | succ fuel ih =>
    intro hfuel
    by_cases h0 : (search s).total = 0
    · exact ⟨s, by simp [delete_all_documents, h0], h0⟩
    · have hlt := hdec s (Nat.pos_of_ne_zero h0)
      obtain ⟨s1, heq, hz⟩ := ih (delete s (search s).ids) (by omega)
      exact ⟨s1, by simp [delete_all_documents, h0, heq], hz⟩

/-- C7, witness: an index modelled by its document count, where each delete
batch removes one document, is emptied from count 3 with fuel 4. -/
theorem C7_delete_all_documents_terminates_witness :
    ∃ s1, delete_all_documents (fun n => ⟨["doc"], n⟩) (fun n _ => n - 1) 4 3
            = some (s1, "Deleted all documents")
          ∧ ((fun (n : Nat) => SearchPage.mk ["doc"] n) s1).total = 0 :=
  C7_delete_all_documents_terminates Nat (fun n => ⟨["doc"], n⟩) (fun n _ => n - 1) 4 3
    (by intro t ht; simpa using Nat.sub_lt ht Nat.one_pos) (by decide)

/-- C8: the `/chat` registry resolves only the name "rrr"; any other string —
"rtr" and "rda" included — receives status 400 with body
`{"error": "unknown approach"}`, while "rrr" dispatches to the chat
strategy. -/
theorem C8_chat_registry_only_rrr :
    (∀ a : String, (dictGet chat_approaches a).isSome ↔ a = "rrr")
    ∧ (∀ now get_token run st st1 req a,
        ensure_openai_token now get_token st = .ok st1 →
        dictGet req "approach" = some (.str a) →
        a ≠ "rrr" →
        chat now get_token run st req
          = (st1, .response 400 (.obj [("error", .str "unknown approach")])))
    ∧ (∀ now get_token run st st1 req impl q r,
        ensure_openai_token now get_token st = .ok st1 →
        dictGet req "approach" = some (.str "rrr") →
        dictGet chat_approaches "rrr" = some impl →
        dictGet req "history" = some q →
        run impl q (if pyTruthy ((dictGet req "overrides").getD .null)
                    then (dictGet req "overrides").getD .null else .obj []) = .ok r →
        chat now get_token run st req = (st1, .response 200 r)) := by
  refine ⟨?_, ?_, ?_⟩
  · intro a
    simp only [chat_approaches, dictGet]
    split_ifs with h1 <;> simp_all [eq_comm]
  · intro now get_token run st st1 req a h1 h2 h3
    have hnone : dictGet chat_approaches a = none := by
      simp only [chat_approaches, dictGet]
      rw [if_neg (fun h => h3 h.symm)]
    simp [chat, h1, h2, hnone, approachLookup]
  · intro now get_token run st st1 req impl q r h1 h2 h3 h4 h5
    simp [chat, h1, h2, h3, h4, h5, approachLookup]

/-- C8, witness: a `/chat` request naming "rtr" — registered for `/ask` but
not for `/chat` — receives the 400 unknown-approach response. -/
theorem C8_chat_registry_only_rrr_witness :
    chat 0 (.ok { token := "t", expires_on := 0 }) (fun _ _ _ => .ok .null)
      { openai_token := { token := "t", expires_on := 100 }, api_key := "t" }
      [("approach", .str "rtr")]
      = ({ openai_token := { token := "t", expires_on := 100 }, api_key := "t" },
         .response 400 (.obj [("error", .str "unknown approach")])) :=
  C8_chat_registry_only_rrr.2.1 0 _ _ _ _ _ "rtr" rfl rfl (by decide)

/-- C9: for a blob name with no hyphen, `rfind` returns `-1`, the slice
`name[:-1]` drops the final character, and the grouping key is that truncated
name stripped — in particular, for a non-empty name it is never the full blob
name. -/
theorem C9_baseName_no_hyphen_drops_last_char :
    ∀ s : String, '-' ∉ s.data →
      baseName s = pythonStrip ⟨s.data.dropLast⟩ ∧ (s ≠ "" → baseName s ≠ s) := by
  intro s hnh
  have hrf : pythonRfind s '-' = -1 := by
    simp [pythonRfind, lastIndexOf_eq_none hnh]
  have hbase : baseName s = pythonStrip ⟨s.data.dropLast⟩ := by
    rw [baseName, hrf, pythonSliceTo_neg_one]
  refine ⟨hbase, ?_⟩
  intro hne heq
  have hlen : s.data.length ≠ 0 := by
    intro h0
    apply hne
    obtain ⟨l⟩ := s
    simp only [String.data] at h0
    rw [List.length_eq_zero] at h0
    rw [h0]
  have h1 : (baseName s).data.length ≤ s.data.dropLast.length := by
    have := length_pythonStrip_le (⟨s.data.dropLast⟩ : String)
    rw [← hbase] at this
    exact this
  rw [heq, List.length_dropLast] at h1
  omega

/-- C9, witness: the hyphen-less name "abc" is grouped under
`strip("ab")` = "ab", not under "abc". -/
theorem C9_baseName_no_hyphen_drops_last_char_witness :
    baseName "abc" = pythonStrip ⟨("abc" : String).data.dropLast⟩
    ∧ (("abc" : String) ≠ "" → baseName "abc" ≠ "abc") :=
  C9_baseName_no_hyphen_drops_last_char "abc" (by decide)

/-- C10: a `/delete_document` request whose `name` is absent, null or the
empty string receives status 400 with body
`{"error": "Missing 'name' parameter"}`, with no deletion attempted and the
blob container and search index left unchanged. -/
theorem C10_delete_document_missing_name_no_effect :
    ∀ req st delOk fuel,
      (dictGet req "name" = none ∨ dictGet req "name" = some .null
        ∨ dictGet req "name" = some (.str "")) →
      delete_document req st delOk fuel
        = (st, [],
           some (.response 400
             (.obj [("error", .str "Missing \x27name\x27 parameter")]))) := by
  intro req st delOk fuel h
  rcases h with h | h | h <;> simp [delete_document, h, pyTruthy]

/-- C10, witness: a request without a `name` key leaves a concrete non-empty
store untouched and yields the 400 response. -/
theorem C10_delete_document_missing_name_no_effect_witness :
    delete_document [] ⟨["a-1"], [⟨"i1", "s.pdf"⟩]⟩ (fun _ => true) 0
      = (⟨["a-1"], [⟨"i1", "s.pdf"⟩]⟩, [],
         some (.response 400 (.obj [("error", .str "Missing \x27name\x27 parameter")]))) :=
  C10_delete_document_missing_name_no_effect [] ⟨["a-1"], [⟨"i1", "s.pdf"⟩]⟩
    (fun _ => true) 0 (Or.inl rfl)
